import Mathlib

/-!
# russound: zone directory, RNET command session and zone dispatch

A shallow embedding of `russound.go`.

* A Go `string` is a sequence of bytes; it is modelled as a list of byte
  values (`GoString`).  Every string literal of the program is ASCII, so a
  literal is the list of its character codes (`str`).
* A Go `error` value is modelled by its message text.
* A Go `[]int` that may be `nil` is an `Option (List Int)`, `none` being `nil`.
* The network is an oracle: a `Session` fixes what the wake broadcast, the
  dial, the write and the read of one `run` call return.  `run` returns its
  Go result together with the list of network operations it performed.
* A Go runtime panic is the outcome `Outcome.fault`.
* Log output is not modelled.
-/

namespace Russound

/-! ## Strings -/

/-- A Go string: its bytes. -/
abbrev GoString := List Nat

/-- A Go error value: its message. -/
abbrev GoError := GoString

/-- The bytes of an ASCII string literal. -/
def str (s : String) : GoString := s.toList.map Char.toNat

/-- Byte-wise prefix test (`strings.HasPrefix`). -/
def hasPrefix : GoString → GoString → Bool
  | _, [] => true
  | [], _ :: _ => false
  | a :: s, b :: p => a == b && hasPrefix s p

/-- Go `strings.Contains(s, substr)`: `substr` occurs in `s` at some offset. -/
def contains : GoString → GoString → Bool
  | [], sub => hasPrefix [] sub
  | a :: s, sub => hasPrefix (a :: s) sub || contains s sub

/-- Decimal digits of a natural number, as bytes. -/
def fmtNat (n : Nat) : GoString := (Nat.toDigits 10 n).map Char.toNat

/-- The verb `%d` of `fmt` applied to an `int`. -/
def fmtInt (z : Int) : GoString :=
  if z < 0 then str "-" ++ fmtNat z.natAbs else fmtNat z.natAbs

/-- Elements of a byte slice under `%v`: decimal values separated by one space. -/
def fmtByteElems : List Nat → GoString
  | [] => []
  | [b] => fmtNat b
  | b :: c :: rest => fmtNat b ++ str " " ++ fmtByteElems (c :: rest)

/-- The verb `%+v` of `fmt` applied to a `[]byte`: `[83 10]`. -/
def fmtBytes (bs : List Nat) : GoString := str "[" ++ fmtByteElems bs ++ str "]"

/-! ## Constants -/

/-- Go `type event string`. -/
abbrev event := GoString

def SourceAux : GoString := str "3"

def EventAllOff : event := str "AllOff"
def EventKeyPress : event := str "KeyPress"
def EventSelectSource : event := str "SelectSource"
def EventZoneOff : event := str "ZoneOff"

def KeyPressVolumeDown : GoString := str "VolumeDown"
def KeyPressVolumeUp : GoString := str "VolumeUp"

/-- Go `type speakerEvent struct`. -/
structure speakerEvent where
  Speaker : GoString
deriving DecidableEq, Repr

/-! ## Zone directory -/

/-- The entries of the map `zones`, in the order of the source text. -/
def zones : List (GoString × List Int) :=
  [ (str "all", [1, 2, 3, 4, 5, 6]),
    (str "living area", [3, 4]),
    (str "bedroom", [1]),
    (str "bathroom", [2]),
    (str "family room", [3]),
    (str "living room", [3]),
    (str "kitchen", [4]),
    (str "study", [5]),
    (str "office", [5]),
    (str "porch", [6]) ]

/-- Go `zoneLookup`.  `order` is the sequence in which `range zones` yields
the entries of the map on this call: some permutation of `zones`. -/
def zoneLookup (order : List (GoString × List Int)) (target : GoString) :
    Option (List Int) :=
  match order with
  | [] => none
  | (z, i) :: rest => if contains target z then some i else zoneLookup rest target

/-! ## Controller session -/

/-- How a Go call ends: a value with a nil error, a non-nil error, or a
runtime panic. -/
inductive Outcome (α : Type) where
  | ok (v : α)
  | error (err : GoError)
  | fault
deriving DecidableEq, Repr

/-- What the network does during one call of `run`. -/
structure Session where
  /-- Result of `wol()`; `none` is a nil error. -/
  wolErr : Option GoError
  /-- Error result of `c.connect()`. -/
  dialErr : Option GoError
  /-- Byte count returned by `conn.Write`. -/
  writeN : Int
  /-- Error returned by `conn.Write`. -/
  writeErr : Option GoError
  /-- Bytes `conn.Read` stored in the buffer; their number is the `n` it returns. -/
  readData : List Nat
  /-- Error returned by `conn.Read`. -/
  readErr : Option GoError
deriving DecidableEq, Repr

/-- Network operations, in the vocabulary of `net.Conn`. -/
inductive Action where
  | wol
  | dial
  | setWriteDeadline (ms : Nat)
  | setReadDeadline (ms : Nat)
  | write (bytes : GoString)
  | read
  | close
deriving DecidableEq, Repr

/-- Go `make([]byte, n)`: `n` zero bytes. -/
def make (n : Nat) : List Nat := List.replicate n 0

/-- The slice expression `buf[0:hi]`; `none` is the panic "slice bounds out of
range".  The capacity of the buffer equals its length. -/
def sliceTo (buf : List Nat) (hi : Int) : Option (List Nat) :=
  if 0 ≤ hi ∧ hi ≤ buf.length then some (buf.take hi.toNat) else none

/-- Go `connection.run`. -/
def run (s : Session) (cmd : GoString) : Outcome GoString × List Action :=
  match s.wolErr with
  | some err => (.error err, [.wol])
  | none =>
  match s.dialErr with
  | some err => (.error err, [.wol, .dial])
  | none =>
  -- `defer conn.Close()`: every later exit ends with `close`
  let sent : List Action := [.wol, .dial, .setWriteDeadline 100, .write cmd]
  if s.writeN ≠ (cmd.length : Int) then
    (.error (str "short write"), sent ++ [.close])
  else
  match s.writeErr with
  | some err => (.error err, sent ++ [.close])
  | none =>
  let response : List Nat := make 1024
  let received : List Action := sent ++ [.setWriteDeadline 500, .read]
  match s.readErr with
  | some err => (.error err, received ++ [.close])
  | none =>
    let n : Int := s.readData.length
    let response := s.readData ++ response.drop s.readData.length
    match sliceTo response (n - 2) with
    | none => (.fault, received ++ [.close])
    | some response => (.ok response, received ++ [.close])

/-- The command string `eventZone` builds and hands to `run`. -/
def eventZoneCmd (zone : Int) (ev : event) (parameter : GoString) : GoString :=
  let cmd := str "event c[1].z[" ++ fmtInt zone ++ str "]!" ++ ev
  let cmd := if parameter ≠ [] then cmd ++ (str " " ++ parameter) else cmd
  cmd ++ str "\n\r"

/-- The part of `eventZone` after `c.run(cmd)` has returned. -/
def eventZoneAck (r : Outcome GoString × List Action) : Outcome GoString × List Action :=
  match r with
  | (.error err, tr) => (.error err, tr)
  | (.fault, tr) => (.fault, tr)
  | (.ok response, tr) =>
    if response ≠ str "S" then
      (.error (str "unexpected response: " ++ fmtBytes response), tr)
    else (.ok [], tr)

/-- Go `connection.eventZone`. -/
def eventZone (s : Session) (zone : Int) (ev : event) (parameter : GoString) :
    Outcome GoString × List Action :=
  eventZoneAck (run s (eventZoneCmd zone ev parameter))

/-! ## Request handling -/

/-- What `decoder.Decode(&speaker)` makes of the request body: an error, or
the decoded value. -/
abbrev Request := Except GoError speakerEvent

/-- Go `loadZones`: the zone slice and the error it returns. -/
def loadZones (order : List (GoString × List Int)) (r : Request) :
    Option (List Int) × Option GoError :=
  match r with
  | .error err => (none, some (str "error unmarshaling body: " ++ err))
  | .ok speaker =>
    if speaker.Speaker = [] then
      (none, some (str "missing speaker name%!(EXTRA <nil>)"))
    else
      match zoneLookup order speaker.Speaker with
      | none => (none, some (str "unknown speaker name: " ++ speaker.Speaker))
      | some zones => (some zones, none)

/-- One call of `eventZone` made by a handler. -/
structure Call where
  zone : Int
  ev : event
  parameter : GoString
deriving DecidableEq, Repr

/-- What a handler did: its calls of `eventZone` in order, how each ended, the
network operations, and whether a panic cut it short. -/
structure HandlerRun where
  calls : List Call
  results : List (Outcome GoString)
  trace : List Action
  faulted : Bool
deriving DecidableEq, Repr

/-- The loop `for _, zone := range zones` shared by the four handlers, which
differ in the event and parameter only.  `env i` is the network behaviour during
the call numbered `i`; a panic inside `eventZone` ends the loop. -/
def rangeZones (env : Nat → Session) (ev : event) (parameter : GoString) :
    Nat → List Int → HandlerRun
  | _, [] => ⟨[], [], [], false⟩
  | i, zone :: rest =>
    match eventZone (env i) zone ev parameter with
    | (.fault, tr) => ⟨[⟨zone, ev, parameter⟩], [.fault], tr, true⟩
    | (res, tr) =>
      let later := rangeZones env ev parameter (i + 1) rest
      ⟨⟨zone, ev, parameter⟩ :: later.calls, res :: later.results,
        tr ++ later.trace, later.faulted⟩

/-- Go `controller.speakerOn`. -/
def speakerOn (order : List (GoString × List Int)) (env : Nat → Session)
    (r : Request) : HandlerRun :=
  rangeZones env EventSelectSource SourceAux 0 ((loadZones order r).1.getD [])

/-- Go `controller.speakerVolumeUp`. -/
def speakerVolumeUp (order : List (GoString × List Int)) (env : Nat → Session)
    (r : Request) : HandlerRun :=
  rangeZones env EventKeyPress KeyPressVolumeUp 0 ((loadZones order r).1.getD [])

/-- Go `controller.speakerVolumeDown`. -/
def speakerVolumeDown (order : List (GoString × List Int)) (env : Nat → Session)
    (r : Request) : HandlerRun :=
  rangeZones env EventKeyPress KeyPressVolumeDown 0 ((loadZones order r).1.getD [])

/-- Go `controller.speakerOff`. -/
def speakerOff (order : List (GoString × List Int)) (env : Nat → Session)
    (r : Request) : HandlerRun :=
  rangeZones env EventZoneOff [] 0 ((loadZones order r).1.getD [])

/-- The command strings a handler handed to `run`, one for each call. -/
def HandlerRun.commands (h : HandlerRun) : List GoString :=
  h.calls.map fun c => eventZoneCmd c.zone c.ev c.parameter

/-- The byte strings handed to `conn.Write`, in order. -/
def writes : List Action → List GoString
  | [] => []
  | .write bytes :: rest => bytes :: writes rest
  | _ :: rest => writes rest

/-- A session in which the wake, the dial and the write of `n` bytes succeed
and the read delivers `data` with a nil error. -/
def answering (n : Nat) (data : List Nat) : Session :=
  { wolErr := none, dialErr := none, writeN := n, writeErr := none,
    readData := data, readErr := none }

/-- A network on which the dial of the first session of a request times out
and every later session is acknowledged with `S`. -/
def flaky (n : Nat) (i : Nat) : Session :=
  if i = 0 then { answering n (str "S\n\r") with dialErr := some (str "i/o timeout") }
  else answering n (str "S\n\r")

/-- A network on which the first session of a request is answered with the
single byte `S`, its terminator missing, and every later session with `S` and
the terminator; each write of `n` bytes succeeds. -/
def truncatedFirst (n : Nat) (i : Nat) : Session :=
  if i = 0 then answering n (str "S") else answering n (str "S\n\r")

/-! ## Substring test -/

theorem hasPrefix_iff (s p : GoString) : hasPrefix s p = true ↔ p <+: s := by
  induction p generalizing s with
  | nil => cases s <;> simp [hasPrefix]
  | cons b p ih =>
    cases s with
    | nil => simp [hasPrefix]
    | cons a s =>
      simp only [hasPrefix, Bool.and_eq_true, beq_iff_eq, ih, List.cons_prefix_cons]
      constructor
      · rintro ⟨h, h2⟩; exact ⟨h.symm, h2⟩
      · rintro ⟨h, h2⟩; exact ⟨h.symm, h2⟩

theorem contains_iff (s sub : GoString) : contains s sub = true ↔ sub <:+: s := by
  induction s with
  | nil =>
    simp only [contains, hasPrefix_iff, List.prefix_nil, List.infix_nil]
  | cons a s ih =>
    simp only [contains, Bool.or_eq_true, hasPrefix_iff, ih, List.infix_cons_iff]

/-! ## Lemmas on the zone directory -/

theorem zoneLookup_eq_none_iff (order : List (GoString × List Int)) (t : GoString) :
    zoneLookup order t = none ↔ ∀ kv ∈ order, contains t kv.1 = false := by
  induction order with
  | nil => simp [zoneLookup]
  | cons kv rest ih =>
    obtain ⟨k, v⟩ := kv
    by_cases h : contains t k = true
    · simp [zoneLookup, h]
    · simp [zoneLookup, h, ih]

theorem zoneLookup_eq_some_iff (order : List (GoString × List Int)) (t : GoString)
    (v : List Int) :
    zoneLookup order t = some v ↔
      ∃ pre k post, order = pre ++ (k, v) :: post ∧ contains t k = true ∧
        ∀ kv ∈ pre, contains t kv.1 = false := by
  induction order with
  | nil => simp [zoneLookup]
  | cons kv rest ih =>
    obtain ⟨k, w⟩ := kv
    by_cases h : contains t k = true
    · simp only [zoneLookup, h, if_true, Option.some.injEq]
      constructor
      · rintro rfl
        exact ⟨[], k, rest, rfl, h, by simp⟩
      · rintro ⟨pre, k', post, heq, hk', hpre⟩
        cases pre with
        | nil =>
          simp only [List.nil_append, List.cons.injEq, Prod.mk.injEq] at heq
          exact heq.1.2
        | cons p pre =>
          simp only [List.cons_append, List.cons.injEq] at heq
          have := hpre p (List.mem_cons_self _ _)
          rw [← heq.1] at this
          simp [h] at this
    · simp only [zoneLookup, h, Bool.false_eq_true, if_false, ih]
      constructor
      · rintro ⟨pre, k', post, heq, hk', hpre⟩
        refine ⟨(k, w) :: pre, k', post, by simp [heq], hk', ?_⟩
        intro kv hkv
        rcases List.mem_cons.1 hkv with rfl | hm
        · simpa using h
        · exact hpre kv hm
      · rintro ⟨pre, k', post, heq, hk', hpre⟩
        cases pre with
        | nil =>
          simp only [List.nil_append, List.cons.injEq, Prod.mk.injEq] at heq
          rw [heq.1.1] at h
          exact absurd hk' h
        | cons p pre =>
          simp only [List.cons_append, List.cons.injEq] at heq
          exact ⟨pre, k', post, heq.2, hk', fun kv hkv => hpre kv (List.mem_cons_of_mem _ hkv)⟩

theorem zoneLookup_of_agree (order : List (GoString × List Int)) (t : GoString)
    (k : GoString) (v : List Int) (hmem : (k, v) ∈ order) (hk : contains t k = true)
    (hall : ∀ kv ∈ order, contains t kv.1 = true → kv.2 = v) :
    zoneLookup order t = some v := by
  cases hz : zoneLookup order t with
  | none =>
    have := (zoneLookup_eq_none_iff order t).1 hz (k, v) hmem
    simp [hk] at this
  | some w =>
    obtain ⟨pre, k', post, heq, hk', -⟩ := (zoneLookup_eq_some_iff order t w).1 hz
    have : (k', w) ∈ order := by rw [heq]; simp
    exact congrArg some (hall (k', w) this hk')

theorem zones_keys_apart :
    ∀ kv ∈ zones, ∀ kv2 ∈ zones, contains kv.1 kv2.1 = true → kv2 = kv := by decide

theorem zones_keys_self : ∀ kv ∈ zones, kv.1 ≠ [] ∧ contains kv.1 kv.1 = true := by decide

theorem zones_lists_increasing :
    ∀ kv ∈ zones, kv.2.Pairwise (· < ·) ∧ ∀ z ∈ kv.2, 1 ≤ z ∧ z ≤ 6 := by decide

/-! ## Lemmas on the controller session -/

theorem sliceTo_received (data : List Nat) (h2 : 2 ≤ data.length) (hcap : data.length ≤ 1024) :
    sliceTo (data ++ (make 1024).drop data.length) ((data.length : Int) - 2) =
      some (data.take (data.length - 2)) := by
  have hlen : (data ++ (make 1024).drop data.length).length = 1024 := by
    simp only [make, List.length_append, List.length_drop, List.length_replicate]; omega
  have hhi : ((data.length : Int) - 2).toNat = data.length - 2 := by omega
  unfold sliceTo
  rw [hlen, hhi, if_pos (by constructor <;> omega)]
  rw [List.take_append_of_le_length (by omega)]

theorem sliceTo_truncated (data : List Nat) (h : data.length < 2) :
    sliceTo (data ++ (make 1024).drop data.length) ((data.length : Int) - 2) =
      none := by
  unfold sliceTo
  rw [if_neg]
  intro hc
  omega

theorem run_complete (s : Session) (cmd : GoString) (hwol : s.wolErr = none)
    (hdial : s.dialErr = none) (hn : s.writeN = (cmd.length : Int))
    (hw : s.writeErr = none) (hr : s.readErr = none) :
    run s cmd =
      (match sliceTo (s.readData ++ (make 1024).drop s.readData.length)
          ((s.readData.length : Int) - 2) with
        | none => Outcome.fault
        | some response => Outcome.ok response,
       [.wol, .dial, .setWriteDeadline 100, .write cmd, .setWriteDeadline 500, .read,
         .close]) := by
  unfold run
  simp only [hwol, hdial, hn, hw, hr, ne_eq, not_true_eq_false, if_false]
  cases sliceTo _ _ <;> rfl

theorem eventZone_complete (s : Session) (zone : Int) (ev : event) (parameter : GoString)
    (hwol : s.wolErr = none) (hdial : s.dialErr = none)
    (hn : s.writeN = ((eventZoneCmd zone ev parameter).length : Int))
    (hw : s.writeErr = none) (hr : s.readErr = none)
    (h2 : 2 ≤ s.readData.length) (hcap : s.readData.length ≤ 1024) :
    (eventZone s zone ev parameter).1 =
      if s.readData.take (s.readData.length - 2) = [83] then Outcome.ok []
      else Outcome.error (str "unexpected response: " ++
        fmtBytes (s.readData.take (s.readData.length - 2))) := by
  have hrun := run_complete s (eventZoneCmd zone ev parameter) hwol hdial hn hw hr
  rw [sliceTo_received s.readData h2 hcap] at hrun
  have hS : str "S" = [83] := rfl
  by_cases h : s.readData.take (s.readData.length - 2) = [83]
  · simp [eventZone, hrun, eventZoneAck, hS, h]
  · simp [eventZone, hrun, eventZoneAck, hS, h]

theorem eventZone_returns_of_read (s : Session) (h2 : 2 ≤ s.readData.length)
    (hcap : s.readData.length ≤ 1024) (zone : Int) (ev : event) (parameter : GoString) :
    (eventZone s zone ev parameter).1 ≠ Outcome.fault := by
  rw [eventZone]
  generalize eventZoneCmd zone ev parameter = cmd
  have hs := sliceTo_received s.readData h2 hcap
  unfold run
  cases s.wolErr <;> cases s.dialErr <;> cases s.writeErr <;> cases s.readErr <;>
    by_cases hn : s.writeN = (cmd.length : Int) <;> simp [hn, eventZoneAck, hs]
  split_ifs <;> simp

theorem writes_append (a b : List Action) : writes (a ++ b) = writes a ++ writes b := by
  induction a with
  | nil => rfl
  | cons x a ih => cases x <;> simp [writes, ih]

theorem writes_eventZone (s : Session) (zone : Int) (ev : event) (parameter : GoString)
    (hwol : s.wolErr = none) (hdial : s.dialErr = none) :
    writes (eventZone s zone ev parameter).2 = [eventZoneCmd zone ev parameter] := by
  rw [eventZone]
  generalize eventZoneCmd zone ev parameter = cmd
  unfold run
  simp only [hwol, hdial]
  split_ifs
  · simp [eventZoneAck, writes]
  · cases s.writeErr <;> cases s.readErr <;> simp only [eventZoneAck, writes]
    · cases sliceTo _ _ <;> simp [eventZoneAck, writes]
      split_ifs <;> simp [writes]

theorem eventZone_truncated (s : Session) (zone : Int) (ev : event) (parameter : GoString)
    (hwol : s.wolErr = none) (hdial : s.dialErr = none)
    (hn : s.writeN = ((eventZoneCmd zone ev parameter).length : Int))
    (hw : s.writeErr = none) (hr : s.readErr = none) (h : s.readData.length < 2) :
    eventZone s zone ev parameter =
      (Outcome.fault,
        [.wol, .dial, .setWriteDeadline 100, .write (eventZoneCmd zone ev parameter),
          .setWriteDeadline 500, .read, .close]) := by
  have hrun := run_complete s (eventZoneCmd zone ev parameter) hwol hdial hn hw hr
  rw [sliceTo_truncated s.readData h] at hrun
  simp [eventZone, hrun, eventZoneAck]

/-! ## Lemmas on zone dispatch -/

theorem rangeZones_returns (env : Nat → Session) (ev : event) (parameter : GoString)
    (hret : ∀ i zone, (eventZone (env i) zone ev parameter).1 ≠ Outcome.fault)
    (i : Nat) (zs : List Int) :
    (rangeZones env ev parameter i zs).calls = zs.map (fun z => ⟨z, ev, parameter⟩) ∧
      (rangeZones env ev parameter i zs).results =
        (zs.enumFrom i).map (fun jz => (eventZone (env jz.1) jz.2 ev parameter).1) ∧
      (rangeZones env ev parameter i zs).faulted = false := by
  induction zs generalizing i with
  | nil => simp [rangeZones]
  | cons z zs ih =>
    obtain ⟨h1, h2, h3⟩ := ih (i + 1)
    have hz := hret i z
    unfold rangeZones
    split
    · rename_i tr heq
      rw [heq] at hz
      exact absurd rfl hz
    · rename_i res tr hnf heq
      simp [h1, h2, h3, List.enumFrom, heq]

theorem rangeZones_fault (env : Nat → Session) (ev : event) (parameter : GoString)
    (i : Nat) (zone : Int) (rest : List Int) (tr : List Action)
    (h : eventZone (env i) zone ev parameter = (Outcome.fault, tr)) :
    rangeZones env ev parameter i (zone :: rest) =
      ⟨[⟨zone, ev, parameter⟩], [Outcome.fault], tr, true⟩ := by
  unfold rangeZones
  rw [h]

theorem rangeZones_commands (env : Nat → Session) (ev : event) (parameter : GoString)
    (hret : ∀ i zone, (eventZone (env i) zone ev parameter).1 ≠ Outcome.fault)
    (zs : List Int) :
    (rangeZones env ev parameter 0 zs).commands =
      zs.map (fun z => eventZoneCmd z ev parameter) := by
  simp [HandlerRun.commands, (rangeZones_returns env ev parameter hret 0 zs).1]

theorem rangeZones_writes (env : Nat → Session) (ev : event) (parameter : GoString)
    (hret : ∀ i zone, (eventZone (env i) zone ev parameter).1 ≠ Outcome.fault)
    (hup : ∀ i, (env i).wolErr = none ∧ (env i).dialErr = none)
    (i : Nat) (zs : List Int) :
    writes (rangeZones env ev parameter i zs).trace =
      zs.map (fun z => eventZoneCmd z ev parameter) := by
  induction zs generalizing i with
  | nil => simp [rangeZones, writes]
  | cons z zs ih =>
    have hz := hret i z
    have hw := writes_eventZone (env i) z ev parameter (hup i).1 (hup i).2
    unfold rangeZones
    split
    · rename_i tr heq
      rw [heq] at hz
      exact absurd rfl hz
    · rename_i res tr hnf heq
      rw [heq] at hw
      simp only at hw
      simp [writes_append, hw, ih (i + 1)]

theorem loadZones_key (order : List (GoString × List Int)) (horder : order.Perm zones)
    (k : GoString) (v : List Int) (hkv : (k, v) ∈ zones) :
    loadZones order (.ok ⟨k⟩) = (some v, none) := by
  have hz : zoneLookup order k = some v :=
    zoneLookup_of_agree order k k v (horder.mem_iff.2 hkv) (zones_keys_self _ hkv).2
      (fun kv hm hc => congrArg Prod.snd (zones_keys_apart _ hkv kv (horder.mem_iff.1 hm) hc))
  simp [loadZones, (zones_keys_self _ hkv).1, hz]

/-! ## Properties -/

/-- C1 (as stated) fails: with the entries visited in source order, the room
name "small bedroom" contains the key "bedroom", bound to zone 1, and
`zoneLookup` returns the zones of "all". -/
theorem zoneLookup_ambiguous_counterexample :
    zones.Perm zones ∧ (str "bedroom", [1]) ∈ zones ∧
      contains (str "small bedroom") (str "bedroom") = true ∧
      zoneLookup zones (str "small bedroom") = some [1, 2, 3, 4, 5, 6] ∧
      zoneLookup zones (str "small bedroom") ≠ some [1] := by
  refine ⟨List.Perm.refl _, ?_, ?_, ?_, ?_⟩ <;> decide

/-- C1 (amended): for every iteration order, every room name `r` and every
directory key `k` that is a substring of `r`, `zoneLookup r` returns the zone
list bound to the first key in that order that is a substring of `r`; it is the
list bound to `k` whenever every directory key that is a substring of `r` is
bound to the same list as `k`. -/
theorem zoneLookup_first_match (order : List (GoString × List Int))
    (horder : order.Perm zones) (r k : GoString) (v : List Int)
    (hkv : (k, v) ∈ zones) (hk : contains r k = true) :
    (∃ pre k1 v1 post, order = pre ++ (k1, v1) :: post ∧ (k1, v1) ∈ zones ∧
        contains r k1 = true ∧ (∀ kv ∈ pre, contains r kv.1 = false) ∧
        zoneLookup order r = some v1) ∧
      ((∀ k2 v2, (k2, v2) ∈ zones → contains r k2 = true → v2 = v) →
        zoneLookup order r = some v) := by
  constructor
  · cases hz : zoneLookup order r with
    | none =>
      have := (zoneLookup_eq_none_iff order r).1 hz (k, v) (horder.mem_iff.2 hkv)
      simp [hk] at this
    | some w =>
      obtain ⟨pre, k1, post, heq, hk1, hpre⟩ := (zoneLookup_eq_some_iff order r w).1 hz
      refine ⟨pre, k1, w, post, heq, horder.mem_iff.1 ?_, hk1, hpre, rfl⟩
      rw [heq]; simp
  · intro hall
    exact zoneLookup_of_agree order r k v (horder.mem_iff.2 hkv) hk
      (fun kv hm hc => hall kv.1 kv.2 (horder.mem_iff.1 hm) hc)

theorem zoneLookup_first_match_witness :
    (∃ pre k1 v1 post, zones = pre ++ (k1, v1) :: post ∧ (k1, v1) ∈ zones ∧
        contains (str "the kitchen") k1 = true ∧
        (∀ kv ∈ pre, contains (str "the kitchen") kv.1 = false) ∧
        zoneLookup zones (str "the kitchen") = some v1) ∧
      ((∀ k2 v2, (k2, v2) ∈ zones → contains (str "the kitchen") k2 = true → v2 = [4]) →
        zoneLookup zones (str "the kitchen") = some [4]) :=
  zoneLookup_first_match zones (List.Perm.refl _) (str "the kitchen") (str "kitchen") [4]
    (by decide) (by decide)

/-- C2: for every iteration order and every room name that contains none of
the ten directory keys, `zoneLookup` returns nil; the empty room name is one of
them. -/
theorem zoneLookup_no_key (order : List (GoString × List Int))
    (horder : order.Perm zones) :
    (∀ r : GoString, (∀ kv ∈ zones, contains r kv.1 = false) → zoneLookup order r = none) ∧
      zoneLookup order [] = none ∧ zones.length = 10 := by
  have h : ∀ r : GoString, (∀ kv ∈ zones, contains r kv.1 = false) →
      zoneLookup order r = none := fun r hr =>
    (zoneLookup_eq_none_iff order r).2 fun kv hm => hr kv (horder.mem_iff.1 hm)
  exact ⟨h, h [] (by decide), rfl⟩

theorem zoneLookup_no_key_witness :
    (∀ kv ∈ zones, contains (str "garage") kv.1 = false) ∧
      zoneLookup zones.reverse (str "garage") = none ∧
      zoneLookup zones.reverse [] = none :=
  ⟨by decide,
    (zoneLookup_no_key zones.reverse (List.reverse_perm _)).1 (str "garage") (by decide),
    (zoneLookup_no_key zones.reverse (List.reverse_perm _)).2.1⟩

/-- C3: the command string `eventZone` hands to `run` is
"event c[1].z[" ++ decimal zone ++ "]!" ++ event kind, then one space and the
parameter exactly when the parameter is non-empty, then the bytes 10 and 13
("\n\r"); `eventZone` is `run` on that string followed by the check of the
reply, whatever the session, and when the wake and the dial succeed it is the
one byte string written to the connection. -/
theorem eventZone_command (zone : Int) (ev : event) (parameter : GoString) :
    eventZoneCmd zone ev parameter =
        str "event c[1].z[" ++ fmtInt zone ++ str "]!" ++ ev ++
          (if parameter = [] then [] else 32 :: parameter) ++ [10, 13] ∧
      (∀ s : Session, eventZone s zone ev parameter =
        eventZoneAck (run s (str "event c[1].z[" ++ fmtInt zone ++ str "]!" ++ ev ++
          (if parameter = [] then [] else 32 :: parameter) ++ [10, 13]))) ∧
      (∀ s : Session, s.wolErr = none → s.dialErr = none →
        writes (eventZone s zone ev parameter).2 =
          [str "event c[1].z[" ++ fmtInt zone ++ str "]!" ++ ev ++
            (if parameter = [] then [] else 32 :: parameter) ++ [10, 13]]) := by
  have hcmd : eventZoneCmd zone ev parameter =
        str "event c[1].z[" ++ fmtInt zone ++ str "]!" ++ ev ++
          (if parameter = [] then [] else 32 :: parameter) ++ [10, 13] := by
    unfold eventZoneCmd
    by_cases hp : parameter = []
    · simp [hp, str]
    · simp [hp, str]
  refine ⟨hcmd, fun s => by rw [eventZone, hcmd], fun s hwol hdial => ?_⟩
  rw [← hcmd]
  exact writes_eventZone s zone ev parameter hwol hdial

theorem eventZone_command_witness :
    eventZoneCmd 4 EventSelectSource SourceAux = str "event c[1].z[4]!SelectSource 3\n\r" ∧
      writes (eventZone (answering 32 (str "S\n\r")) 4 EventSelectSource SourceAux).2 =
        [str "event c[1].z[4]!SelectSource 3\n\r"] :=
  ⟨(eventZone_command 4 EventSelectSource SourceAux).1,
    (eventZone_command 4 EventSelectSource SourceAux).2.2 (answering 32 (str "S\n\r")) rfl rfl⟩

/-- C4: when the wake, the dial and the write succeed and the read returns
`n` bytes with `2 ≤ n ≤ 1024` and a nil error, `eventZone` returns a nil error
exactly when the bytes before the last two are the single byte `S`; otherwise it
returns the error "unexpected response: " followed by those bytes as `fmt`
prints a byte slice. -/
theorem eventZone_ack (s : Session) (zone : Int) (ev : event) (parameter : GoString)
    (hwol : s.wolErr = none) (hdial : s.dialErr = none)
    (hn : s.writeN = ((eventZoneCmd zone ev parameter).length : Int))
    (hw : s.writeErr = none) (hr : s.readErr = none)
    (h2 : 2 ≤ s.readData.length) (hcap : s.readData.length ≤ 1024) :
    ((eventZone s zone ev parameter).1 = Outcome.ok [] ↔
        s.readData.take (s.readData.length - 2) = [83]) ∧
      ((∃ v, (eventZone s zone ev parameter).1 = Outcome.ok v) ↔
        s.readData.take (s.readData.length - 2) = [83]) ∧
      (s.readData.take (s.readData.length - 2) ≠ [83] →
        (eventZone s zone ev parameter).1 =
          Outcome.error (str "unexpected response: " ++
            fmtBytes (s.readData.take (s.readData.length - 2)))) := by
  have h := eventZone_complete s zone ev parameter hwol hdial hn hw hr h2 hcap
  by_cases hS : s.readData.take (s.readData.length - 2) = [83]
  · simp [h, hS]
  · simp [h, hS]

theorem eventZone_ack_witness :
    ((eventZone (answering 32 (str "S\n\r")) 4 EventSelectSource SourceAux).1 = Outcome.ok [] ↔
        (str "S\n\r").take ((str "S\n\r").length - 2) = [83]) ∧
      ((str "E\n\r").take ((str "E\n\r").length - 2) ≠ [83] →
        (eventZone (answering 32 (str "E\n\r")) 4 EventSelectSource SourceAux).1 =
          Outcome.error (str "unexpected response: [69]")) ∧
      ((str "\n\r").take ((str "\n\r").length - 2) ≠ [83] →
        (eventZone (answering 32 (str "\n\r")) 4 EventSelectSource SourceAux).1 =
          Outcome.error (str "unexpected response: []")) :=
  ⟨(eventZone_ack (answering 32 (str "S\n\r")) 4 EventSelectSource SourceAux rfl rfl
      (by decide) rfl rfl (by decide) (by decide)).1,
    (eventZone_ack (answering 32 (str "E\n\r")) 4 EventSelectSource SourceAux rfl rfl
      (by decide) rfl rfl (by decide) (by decide)).2.2,
    (eventZone_ack (answering 32 (str "\n\r")) 4 EventSelectSource SourceAux rfl rfl
      (by decide) rfl rfl (by decide) (by decide)).2.2⟩

/-- C5 fails on the code: when the wake, the dial and the write succeed and
the read returns fewer than two bytes with a nil error, the slice expression
`response[0:n-2]` has a negative bound, so `run` and `eventZone` end in a
runtime panic and no error is returned. -/
theorem run_truncated_read_faults (s : Session) (zone : Int) (ev : event)
    (parameter : GoString) (hwol : s.wolErr = none) (hdial : s.dialErr = none)
    (hn : s.writeN = ((eventZoneCmd zone ev parameter).length : Int))
    (hw : s.writeErr = none) (hr : s.readErr = none) (h : s.readData.length < 2) :
    (run s (eventZoneCmd zone ev parameter)).1 = Outcome.fault ∧
      (eventZone s zone ev parameter).1 = Outcome.fault := by
  have hrun := run_complete s (eventZoneCmd zone ev parameter) hwol hdial hn hw hr
  rw [sliceTo_truncated s.readData h] at hrun
  simp [eventZone, hrun, eventZoneAck]

theorem run_truncated_read_faults_witness :
    (run (answering 32 (str "S")) (eventZoneCmd 4 EventSelectSource SourceAux)).1 =
        Outcome.fault ∧
      (eventZone (answering 32 (str "S")) 4 EventSelectSource SourceAux).1 = Outcome.fault :=
  run_truncated_read_faults (answering 32 (str "S")) 4 EventSelectSource SourceAux rfl rfl
    (by decide) rfl rfl (by decide)

/-- C6: when the wake and the dial succeed and `conn.Write` returns a count
different from the length of the command, `run` returns the error "short write"
whether or not the write error is nil, performs no read and does not return
success; when the count equals the length and the write error is non-nil, `run`
returns that error. -/
theorem run_short_write (s : Session) (cmd : GoString) (hwol : s.wolErr = none)
    (hdial : s.dialErr = none) :
    (s.writeN ≠ (cmd.length : Int) →
        (run s cmd).1 = Outcome.error (str "short write") ∧
        Action.read ∉ (run s cmd).2 ∧ (∀ v, (run s cmd).1 ≠ Outcome.ok v)) ∧
      (s.writeN = (cmd.length : Int) → ∀ err, s.writeErr = some err →
        (run s cmd).1 = Outcome.error err ∧ Action.read ∉ (run s cmd).2) := by
  constructor
  · intro hn
    unfold run
    simp [hwol, hdial, hn]
  · intro hn err hw
    unfold run
    simp [hwol, hdial, hn, hw]

theorem run_short_write_witness :
    (run { answering 31 (str "S\n\r") with writeErr := some (str "timeout") }
        (eventZoneCmd 4 EventSelectSource SourceAux)).1 = Outcome.error (str "short write") ∧
      (run (answering 31 (str "S\n\r")) (eventZoneCmd 4 EventSelectSource SourceAux)).1 =
        Outcome.error (str "short write") ∧
      (run { answering 32 (str "S\n\r") with writeErr := some (str "timeout") }
        (eventZoneCmd 4 EventSelectSource SourceAux)).1 = Outcome.error (str "timeout") :=
  ⟨((run_short_write { answering 31 (str "S\n\r") with writeErr := some (str "timeout") }
      (eventZoneCmd 4 EventSelectSource SourceAux) rfl rfl).1 (by decide)).1,
    ((run_short_write (answering 31 (str "S\n\r"))
      (eventZoneCmd 4 EventSelectSource SourceAux) rfl rfl).1 (by decide)).1,
    ((run_short_write { answering 32 (str "S\n\r") with writeErr := some (str "timeout") }
      (eventZoneCmd 4 EventSelectSource SourceAux) rfl rfl).2 (by decide) _ rfl).1⟩

/-- C7 fails on the code: the request "living area" resolves to the zones 3
and 4, and when the session for zone 3 is answered with a single byte (a reply
without its terminator) `eventZone` panics inside `run`, the loop of the handler
ends there, and `eventZone` is never called for zone 4; so for each of the four
handlers.  The spec counts a truncated reply as a failure of that zone only. -/
theorem handlers_stop_at_truncated_reply :
    (loadZones zones (.ok ⟨str "living area"⟩)).1 = some [3, 4] ∧
      ((speakerOn zones (truncatedFirst 32) (.ok ⟨str "living area"⟩)).calls =
          [⟨3, str "SelectSource", str "3"⟩] ∧
        (speakerOn zones (truncatedFirst 32) (.ok ⟨str "living area"⟩)).results =
          [Outcome.fault] ∧
        (speakerOn zones (truncatedFirst 32) (.ok ⟨str "living area"⟩)).faulted = true) ∧
      ((speakerOff zones (truncatedFirst 25) (.ok ⟨str "living area"⟩)).calls =
          [⟨3, str "ZoneOff", []⟩] ∧
        (speakerOff zones (truncatedFirst 25) (.ok ⟨str "living area"⟩)).results =
          [Outcome.fault] ∧
        (speakerOff zones (truncatedFirst 25) (.ok ⟨str "living area"⟩)).faulted = true) ∧
      ((speakerVolumeUp zones (truncatedFirst 35) (.ok ⟨str "living area"⟩)).calls =
          [⟨3, str "KeyPress", str "VolumeUp"⟩] ∧
        (speakerVolumeUp zones (truncatedFirst 35) (.ok ⟨str "living area"⟩)).results =
          [Outcome.fault] ∧
        (speakerVolumeUp zones (truncatedFirst 35) (.ok ⟨str "living area"⟩)).faulted =
          true) ∧
      ((speakerVolumeDown zones (truncatedFirst 37) (.ok ⟨str "living area"⟩)).calls =
          [⟨3, str "KeyPress", str "VolumeDown"⟩] ∧
        (speakerVolumeDown zones (truncatedFirst 37) (.ok ⟨str "living area"⟩)).results =
          [Outcome.fault] ∧
        (speakerVolumeDown zones (truncatedFirst 37) (.ok ⟨str "living area"⟩)).faulted =
          true) := by
  have hload : loadZones zones (.ok ⟨str "living area"⟩) = (some [3, 4], none) := by decide
  have hon := rangeZones_fault (truncatedFirst 32) EventSelectSource SourceAux 0 3 [4] _
    (eventZone_truncated (truncatedFirst 32 0) 3 EventSelectSource SourceAux rfl rfl
      (by decide) rfl rfl (by decide))
  have hoff := rangeZones_fault (truncatedFirst 25) EventZoneOff [] 0 3 [4] _
    (eventZone_truncated (truncatedFirst 25 0) 3 EventZoneOff [] rfl rfl
      (by decide) rfl rfl (by decide))
  have hup := rangeZones_fault (truncatedFirst 35) EventKeyPress KeyPressVolumeUp 0 3 [4] _
    (eventZone_truncated (truncatedFirst 35 0) 3 EventKeyPress KeyPressVolumeUp rfl rfl
      (by decide) rfl rfl (by decide))
  have hdown := rangeZones_fault (truncatedFirst 37) EventKeyPress KeyPressVolumeDown 0 3 [4] _
    (eventZone_truncated (truncatedFirst 37 0) 3 EventKeyPress KeyPressVolumeDown rfl rfl
      (by decide) rfl rfl (by decide))
  refine ⟨by rw [hload], ?_, ?_, ?_, ?_⟩
  · rw [speakerOn, hload]
    exact ⟨congrArg HandlerRun.calls hon, congrArg HandlerRun.results hon,
      congrArg HandlerRun.faulted hon⟩
  · rw [speakerOff, hload]
    exact ⟨congrArg HandlerRun.calls hoff, congrArg HandlerRun.results hoff,
      congrArg HandlerRun.faulted hoff⟩
  · rw [speakerVolumeUp, hload]
    exact ⟨congrArg HandlerRun.calls hup, congrArg HandlerRun.results hup,
      congrArg HandlerRun.faulted hup⟩
  · rw [speakerVolumeDown, hload]
    exact ⟨congrArg HandlerRun.calls hdown, congrArg HandlerRun.results hdown,
      congrArg HandlerRun.faulted hdown⟩

/-- C8 fails on the code: the lookup of "living area" gives the zones 3 and
4 and "kitchen" gives zone 4, but with action volume-up on "living area", when
the session for zone 3 is answered with a single byte, the handler panics after
the command for zone 3: one command is handed to `run` and one byte string is
written to the network, `event c[1].z[3]!KeyPress VolumeUp` plus "\n\r", and
none for zone 4, where the claim says exactly two. -/
theorem living_area_one_command_on_truncated_reply :
    zoneLookup zones (str "living area") = some [3, 4] ∧
      zoneLookup zones (str "kitchen") = some [4] ∧
      (speakerVolumeUp zones (truncatedFirst 35) (.ok ⟨str "living area"⟩)).commands =
        [str "event c[1].z[3]!KeyPress VolumeUp\n\r"] ∧
      writes (speakerVolumeUp zones (truncatedFirst 35) (.ok ⟨str "living area"⟩)).trace =
        [str "event c[1].z[3]!KeyPress VolumeUp\n\r"] ∧
      (speakerVolumeUp zones (truncatedFirst 35) (.ok ⟨str "living area"⟩)).trace =
        [.wol, .dial, .setWriteDeadline 100,
          .write (str "event c[1].z[3]!KeyPress VolumeUp\n\r"),
          .setWriteDeadline 500, .read, .close] ∧
      (speakerVolumeUp zones (truncatedFirst 35) (.ok ⟨str "living area"⟩)).faulted = true := by
  have hload : loadZones zones (.ok ⟨str "living area"⟩) = (some [3, 4], none) := by decide
  have hup := rangeZones_fault (truncatedFirst 35) EventKeyPress KeyPressVolumeUp 0 3 [4] _
    (eventZone_truncated (truncatedFirst 35 0) 3 EventKeyPress KeyPressVolumeUp rfl rfl
      (by decide) rfl rfl (by decide))
  have hrun : speakerVolumeUp zones (truncatedFirst 35) (.ok ⟨str "living area"⟩) =
      ⟨[⟨3, EventKeyPress, KeyPressVolumeUp⟩], [Outcome.fault],
        [.wol, .dial, .setWriteDeadline 100,
          .write (eventZoneCmd 3 EventKeyPress KeyPressVolumeUp),
          .setWriteDeadline 500, .read, .close], true⟩ := by
    rw [speakerVolumeUp, hload]
    exact hup
  refine ⟨by decide, by decide, ?_, ?_, ?_, ?_⟩
  · rw [hrun]; decide
  · rw [hrun]; decide
  · rw [hrun]; decide
  · rw [hrun]

/-- C9: for every iteration order and every request whose body fails to
decode, whose room name is empty, or whose room name contains no directory key,
`loadZones` returns a nil zone list with a non-nil error, and each of the four
handlers makes no call of `eventZone` and performs no network operation: no
wake broadcast and no dial. -/
theorem rejected_request_no_calls (order : List (GoString × List Int))
    (horder : order.Perm zones) (env : Nat → Session) (r : Request)
    (hbad : (∃ err, r = .error err) ∨
      ∃ speaker, r = .ok speaker ∧
        (speaker.Speaker = [] ∨ ∀ kv ∈ zones, contains speaker.Speaker kv.1 = false)) :
    (loadZones order r).1 = none ∧ (∃ err, (loadZones order r).2 = some err) ∧
      (speakerOn order env r).calls = [] ∧ (speakerOn order env r).trace = [] ∧
      (speakerOff order env r).calls = [] ∧ (speakerOff order env r).trace = [] ∧
      (speakerVolumeUp order env r).calls = [] ∧ (speakerVolumeUp order env r).trace = [] ∧
      (speakerVolumeDown order env r).calls = [] ∧
      (speakerVolumeDown order env r).trace = [] := by
  have hload : (loadZones order r).1 = none ∧ ∃ err, (loadZones order r).2 = some err := by
    rcases hbad with ⟨err, rfl⟩ | ⟨speaker, rfl, hsp⟩
    · simp [loadZones]
    · by_cases he : speaker.Speaker = []
      · simp [loadZones, he]
      · have hnone : zoneLookup order speaker.Speaker = none := by
          rcases hsp with h | h
          · exact absurd h he
          · exact (zoneLookup_eq_none_iff order _).2 fun kv hm => h kv (horder.mem_iff.1 hm)
        simp [loadZones, he, hnone]
  refine ⟨hload.1, hload.2, ?_⟩
  simp [speakerOn, speakerOff, speakerVolumeUp, speakerVolumeDown, hload.1, rangeZones]

theorem rejected_request_no_calls_witness :
    (loadZones zones (.ok ⟨str "garage"⟩)).1 = none ∧
      (∃ err, (loadZones zones (.ok ⟨str "garage"⟩)).2 = some err) ∧
      (speakerOn zones (flaky 32) (.ok ⟨str "garage"⟩)).calls = [] ∧
      (speakerOn zones (flaky 32) (.ok ⟨str "garage"⟩)).trace = [] ∧
      (speakerOff zones (flaky 32) (.ok ⟨str "garage"⟩)).calls = [] ∧
      (speakerOff zones (flaky 32) (.ok ⟨str "garage"⟩)).trace = [] ∧
      (speakerVolumeUp zones (flaky 32) (.ok ⟨str "garage"⟩)).calls = [] ∧
      (speakerVolumeUp zones (flaky 32) (.ok ⟨str "garage"⟩)).trace = [] ∧
      (speakerVolumeDown zones (flaky 32) (.ok ⟨str "garage"⟩)).calls = [] ∧
      (speakerVolumeDown zones (flaky 32) (.ok ⟨str "garage"⟩)).trace = [] :=
  rejected_request_no_calls zones (List.Perm.refl _) (flaky 32) (.ok ⟨str "garage"⟩)
    (Or.inr ⟨⟨str "garage"⟩, rfl, Or.inr (by decide)⟩)

/-- C10 fails on the code: after a complete write `run` calls
`SetWriteDeadline` a second time, 500 ms ahead, and then reads; no call of
`SetReadDeadline` occurs in any run, so no read deadline is set.  The write
deadline before the write is 100 ms ahead. -/
theorem run_sets_no_read_deadline (s : Session) (cmd : GoString) :
    (∀ ms, Action.setReadDeadline ms ∉ (run s cmd).2) ∧
      (s.wolErr = none → s.dialErr = none → s.writeN = (cmd.length : Int) →
        s.writeErr = none →
        (run s cmd).2 = [.wol, .dial, .setWriteDeadline 100, .write cmd,
          .setWriteDeadline 500, .read, .close]) := by
  constructor
  · intro ms
    unfold run
    cases s.wolErr <;> cases s.dialErr <;> cases s.writeErr <;> cases s.readErr <;>
      by_cases hn : s.writeN = (cmd.length : Int) <;> simp [hn]
    split <;> simp
  · intro hwol hdial hn hw
    unfold run
    simp only [hwol, hdial, hn, hw, ne_eq, not_true_eq_false, if_false]
    cases s.readErr <;> simp
    cases sliceTo _ _ <;> simp

theorem run_sets_no_read_deadline_witness :
    (run (answering 32 (str "S\n\r")) (eventZoneCmd 4 EventSelectSource SourceAux)).2 =
      [.wol, .dial, .setWriteDeadline 100, .write (str "event c[1].z[4]!SelectSource 3\n\r"),
        .setWriteDeadline 500, .read, .close] :=
  (run_sets_no_read_deadline (answering 32 (str "S\n\r"))
    (eventZoneCmd 4 EventSelectSource SourceAux)).2 rfl rfl (by decide) rfl

end Russound
